import Mathlib

/-!
# Setup wiring of the tunnelling client (`app/tun.go`, `app/win.go`)

A shallow embedding of the composition code of package `app`:

* `NewIPFilter` and `NewAppFilter` (divert build, `win.go`),
* `App.Run` of the divert build (`win.go`),
* `App.RunWithDevice` of the TUN build (`tun.go`).

Every call into another package (resolver, handler, device, stack, listener, filter, the
Windows API) is an external effect.  Its outcome is read from a `World` record and the call
is written to a log kept on the `App`, so that statements about which calls happen, in which
order and with which arguments become statements about a list.

A Go `error` is `Option GoError`, with `none` for `nil`.
-/

namespace Shadow

/-! ## Errors -/

/-- Go error values that occur in the setup code. -/
inductive GoError where
  /-- An error value handed back by a collaborator; the text is whatever it reported. -/
  | ext (msg : String)
  /-- The value of `errors.New(msg)`. -/
  | new (msg : String)
  /-- The value of `fmt.Errorf(format, err)` where the format ends in `%w`. -/
  | wrap (format : String) (err : GoError)
  /-- The value of `fmt.Errorf(format, v)` where the only verb is `%v` on a number. -/
  | errorfV (format : String) (v : Nat)
  /-- The value of `fmt.Errorf(format, v, err)` with a `%v` on a string and a `%w`. -/
  | wrapV (format : String) (v : String) (err : GoError)
  /-- A `*strconv.NumError` whose `Err` is `strconv.ErrSyntax`. -/
  | numInvalid (fn : String) (num : String)
  /-- A `*strconv.NumError` whose `Err` is `strconv.ErrRange`. -/
  | numRange (fn : String) (num : String)
  deriving DecidableEq

/-! ## Configuration -/

/-- The field `Conf.IPCIDRRules`. -/
structure IPCIDRRules where
  Proxy : List String
  deriving DecidableEq

/-- The field `Conf.AppRules`. -/
structure AppRules where
  Proxy : List String
  deriving DecidableEq

/-- The field `Conf.GeoIP`. -/
structure GeoIP where
  File : String
  Proxy : List String
  Bypass : List String
  Final : String
  deriving DecidableEq

/-- The field `Conf.DomainRules`. -/
structure DomainRules where
  DisableHijack : Bool
  deriving DecidableEq

/-- The fields of `Conf` that `tun.go` and `win.go` read. -/
structure Conf where
  Server : String
  NameServer : String
  FilterString : String
  ProxyServer : String
  TunName : String
  TunAddr : List String
  IPCIDRRules : IPCIDRRules
  AppRules : AppRules
  GeoIP : GeoIP
  DomainRules : DomainRules
  deriving DecidableEq

/-! ## Filters (`win.go`) -/

/-- Calls made on a `*filter.IPFilter`, in the order they are made. -/
inductive IPFilterCall where
  | Lock
  /-- The call `UnsafeAdd(item)`; `added` tells whether the filter accepted the entry. -/
  | UnsafeAdd (item : String) (added : Bool)
  | Unlock
  /-- The call `SetGeoIP(file, proxy, bypass, final)`. -/
  | SetGeoIP (file : String) (proxy : List String) (bypass : List String) (final : Bool)
  deriving DecidableEq

/-- An IP filter, seen as the history of the calls made on it since `filter.NewIPFilter()`. -/
structure IPFilter where
  calls : List IPFilterCall
  deriving DecidableEq

/-- Behaviour of package `filter` for IP filters. -/
structure IPFilterWorld where
  /-- Whether `UnsafeAdd(item)` manages to add the entry (a well-formed CIDR). -/
  UnsafeAdd : String → Bool
  /-- The error returned by `SetGeoIP(file, proxy, bypass, final)`. -/
  SetGeoIP : String → List String → List String → Bool → Option GoError

/-- The loop `for _, item := range conf.IPCIDRRules.Proxy { filter.UnsafeAdd(item) }`:
whatever `UnsafeAdd` reports is dropped. -/
def ipUnsafeAddAll (w : IPFilterWorld) : List String → IPFilter → IPFilter
  | [], f => f
  | item :: rest, f =>
    ipUnsafeAddAll w rest ⟨f.calls ++ [IPFilterCall.UnsafeAdd item (w.UnsafeAdd item)]⟩

/-- The function `NewIPFilter` of `win.go`. -/
def NewIPFilter (w : IPFilterWorld) (conf : Conf) : IPFilter × Option GoError :=
  let filter : IPFilter := ⟨[]⟩
  let filter : IPFilter := ⟨filter.calls ++ [IPFilterCall.Lock]⟩
  let filter := ipUnsafeAddAll w conf.IPCIDRRules.Proxy filter
  let filter : IPFilter := ⟨filter.calls ++ [IPFilterCall.Unlock]⟩
  if conf.GeoIP.Proxy.length = 0 ∧ conf.GeoIP.Bypass.length = 0 then
    (filter, none)
  else
    let err := w.SetGeoIP conf.GeoIP.File conf.GeoIP.Proxy conf.GeoIP.Bypass
      (decide (conf.GeoIP.Final = "proxy"))
    (⟨filter.calls ++ [IPFilterCall.SetGeoIP conf.GeoIP.File conf.GeoIP.Proxy conf.GeoIP.Bypass
      (decide (conf.GeoIP.Final = "proxy"))]⟩, err)

/-- Number of `SetGeoIP` calls in a call history. -/
def countSetGeoIP (calls : List IPFilterCall) : Nat :=
  (calls.filter fun c => match c with
    | IPFilterCall.SetGeoIP _ _ _ _ => true
    | _ => false).length

/-! ### The Go library functions used by `NewAppFilter` -/

/-- The function `strings.Split(s, ",")` on the characters of `s`: the pieces between the
commas, one more piece than there are commas. -/
def splitComma : List Char → List (List Char)
  | [] => [[]]
  | c :: cs =>
    if c = ',' then [] :: splitComma cs
    else
      match splitComma cs with
      | [] => [[c]]
      | piece :: pieces => (c :: piece) :: pieces

/-- The function `strings.Split(s, ",")`. -/
def Split (s : String) : List String :=
  (splitComma s.data).map String.mk

/-- Whether a character is one of `'0'` … `'9'`. -/
def isDecimalDigit (c : Char) : Bool :=
  decide (48 ≤ c.toNat ∧ c.toNat ≤ 57)

/-- The loop of the fast path of `strconv.Atoi`: `n = n*10 + int(ch - '0')`, a syntax error at
the first byte that is not a digit.  It runs on fewer than 10 bytes when `int` has 32 bits and
on fewer than 19 when it has 64, so `n` stays below `10 ^ 9`, respectively `10 ^ 18`, and the
`int` arithmetic does not wrap. -/
def atoiFastLoop : List Char → Nat → Option Nat
  | [], n => some n
  | ch :: rest, n =>
    if isDecimalDigit ch then atoiFastLoop rest (n * 10 + (ch.toNat - 48)) else none

/-- Outcome of the digit loop of `strconv.ParseUint`. -/
inductive UintResult where
  | ok (n : Nat)
  | invalid
  | overflow
  deriving DecidableEq

/-- The digit loop of `strconv.ParseUint(s, 10, bitSize)`, with `cutoff = maxUint64/10 + 1`
and `maxVal = 1<<bitSize - 1`: a syntax error at the first byte that is not a digit, a range
error as soon as `n*10` leaves 64 bits or `n*10 + d` leaves 64 bits or exceeds `maxVal`. -/
def parseUintLoop (bitSize : Nat) : List Char → Nat → UintResult
  | [], n => UintResult.ok n
  | c :: rest, n =>
    if isDecimalDigit c then
      if n ≥ (2 ^ 64 - 1) / 10 + 1 then UintResult.overflow
      else if n * 10 + (c.toNat - 48) > 2 ^ 64 - 1 ∨ n * 10 + (c.toNat - 48) > 2 ^ bitSize - 1 then
        UintResult.overflow
      else parseUintLoop bitSize rest (n * 10 + (c.toNat - 48))
    else UintResult.invalid

/-- The function `strconv.ParseInt(s, 10, 0)` with the function name of the error already
set to `Atoi`, as `strconv.Atoi` does on its slow path.  `intSize` is the size in bits of the
Go type `int` on the target (`strconv.IntSize`), which the bit size `0` stands for. -/
def parseInt (intSize : Nat) (s0 : String) : Int × Option GoError :=
  match s0.data with
  | [] => (0, some (GoError.numInvalid "Atoi" s0))
  | c :: rest =>
    let neg := decide (c = '-')
    let s := if c = '+' ∨ c = '-' then rest else c :: rest
    match s with
    | [] => (0, some (GoError.numInvalid "Atoi" s0))
    | _ :: _ =>
      match parseUintLoop intSize s 0 with
      | UintResult.invalid => (0, some (GoError.numInvalid "Atoi" s0))
      | UintResult.overflow =>
        -- `un` is `maxVal`, beyond both cutoffs
        if neg then (-(2 ^ (intSize - 1) : Int), some (GoError.numRange "Atoi" s0))
        else ((2 ^ (intSize - 1) : Int) - 1, some (GoError.numRange "Atoi" s0))
      | UintResult.ok un =>
        if ¬ neg ∧ un ≥ 2 ^ (intSize - 1) then
          ((2 ^ (intSize - 1) : Int) - 1, some (GoError.numRange "Atoi" s0))
        else if neg ∧ un > 2 ^ (intSize - 1) then
          (-(2 ^ (intSize - 1) : Int), some (GoError.numRange "Atoi" s0))
        else
          (if neg then -(un : Int) else (un : Int), none)

/-- The function `strconv.Atoi`: the value and the error.  `intSize` is the size in bits of
the Go type `int` on the target, 32 (`GOARCH=386`) or 64 (`GOARCH=amd64`); the source does not
fix it. -/
def Atoi (intSize : Nat) (s0 : String) : Int × Option GoError :=
  if (intSize = 32 ∧ 0 < s0.utf8ByteSize ∧ s0.utf8ByteSize < 10) ∨
      (intSize = 64 ∧ 0 < s0.utf8ByteSize ∧ s0.utf8ByteSize < 19) then
    match s0.data with
    | [] => (0, some (GoError.numInvalid "Atoi" s0))
    | c :: rest =>
      let s := if c = '-' ∨ c = '+' then rest else c :: rest
      match s with
      | [] => (0, some (GoError.numInvalid "Atoi" s0))
      | _ :: _ =>
        match atoiFastLoop s 0 with
        | none => (0, some (GoError.numInvalid "Atoi" s0))
        | some n => (if c = '-' then -(n : Int) else (n : Int), none)
  else parseInt intSize s0

/-- The conversion `uint32(i)` of an `int`. -/
def uint32 (i : Int) : Nat :=
  (i % (2 ^ 32 : Int)).toNat

/-! ### `NewAppFilter` -/

/-- Calls made on a `*filter.AppFilter`, in the order they are made. -/
inductive AppFilterCall where
  | Lock
  | UnsafeAdd (item : String)
  | Unlock
  | SetPIDs (ids : List Nat)
  deriving DecidableEq

/-- An application filter, seen as the history of the calls made on it. -/
structure AppFilter where
  calls : List AppFilterCall
  deriving DecidableEq

/-- The loop `for _, item := range conf.AppRules.Proxy { filter.UnsafeAdd(item) }`. -/
def appUnsafeAddAll : List String → AppFilter → AppFilter
  | [], f => f
  | item :: rest, f => appUnsafeAddAll rest ⟨f.calls ++ [AppFilterCall.UnsafeAdd item]⟩

/-- The loop over the fields of `SHADOW_PIDS` in `NewAppFilter`, started with the `ids`
collected so far: the first field that fails to parse and is not empty ends it with the
wrapped error. -/
def parsePIDs (intSize : Nat) : List String → List Nat → Except GoError (List Nat)
  | [], ids => Except.ok ids
  | v :: rest, ids =>
    match Atoi intSize v with
    | (i, some err) =>
      if v ≠ "" then Except.error (GoError.wrapV "strconv (%v) err: %w" v err)
      else parsePIDs intSize rest (ids ++ [uint32 i])
    | (i, none) => parsePIDs intSize rest (ids ++ [uint32 i])

/-- The function `NewAppFilter` of `win.go`; `intSize` is the size in bits of `int` on the
target and `env` the value of `os.Getenv("SHADOW_PIDS")`.  The first component is `none` for a
nil filter. -/
def NewAppFilter (intSize : Nat) (env : String) (conf : Conf) :
    Option AppFilter × Option GoError :=
  if env = "" ∧ conf.AppRules.Proxy.length = 0 then
    (none, none)
  else
    let filter : AppFilter := ⟨[]⟩
    let filter : AppFilter := ⟨filter.calls ++ [AppFilterCall.Lock]⟩
    let filter := appUnsafeAddAll conf.AppRules.Proxy filter
    let filter : AppFilter := ⟨filter.calls ++ [AppFilterCall.Unlock]⟩
    if env ≠ "" then
      match parsePIDs intSize (Split env) [] with
      | Except.error err => (none, some err)
      | Except.ok ids => (some ⟨filter.calls ++ [AppFilterCall.SetPIDs ids]⟩, none)
    else (some filter, none)

/-! ## The application -/

/-- The objects handed to `attachCloser`. -/
inductive Closer where
  /-- The value `&WindowsMutex{Handle: mutex}`. -/
  | WindowsMutex
  | handler
  | dev
  | stack
  | server
  /-- A closer that is in `app.closers` before the run starts. -/
  | earlier (n : Nat)
  deriving DecidableEq

/-- The calls whose order the setup code fixes.  `ok` is `true` when the call returned a nil
error. -/
inductive Event where
  | OpenMutex (ok : Bool)
  | CloseHandle
  | CreateMutex (ok : Bool)
  | WaitForSingleObject (event : Nat) (ok : Bool)
  | NewResolver (ok : Bool)
  | NewHandler (ok : Bool)
  | attachCloser (c : Closer)
  | NewAppFilter (ok : Bool)
  | NewIPFilter (ok : Bool)
  | IgnorePrivate
  /-- The call `divert.NewDevice(filterString, appFilter, ipFilter, hijack)`. -/
  | divertNewDevice (hijack : Bool) (ok : Bool)
  /-- The call `tun.NewDeviceWithMTU(name, mtu)`. -/
  | NewDeviceWithMTU (name : String) (mtu : Nat) (ok : Bool)
  | SetInterfaceAddress (address : String) (ok : Bool)
  | Activate (ok : Bool)
  | NewDomainTree (ok : Bool)
  /-- The call `netstack.NewStack(handler, resolver, tree, hijack)`. -/
  | NewStack (hijack : Bool)
  /-- The call `stack.Start(dev, logger, mtu)`. -/
  | stackStart (mtu : Nat) (ok : Bool)
  | Listen (addr : String) (ok : Bool)
  | NewServer
  | Serve
  | AddRouteEntry (ok : Bool)
  /-- The call `closer.Close()` made by the deferred loop over `app.closers`. -/
  | Close (c : Closer)
  /-- The call `ipFilter.Close()` made by the second deferred function of the divert `Run`. -/
  | ipFilterClose
  deriving DecidableEq

/-- The target and the outcomes of the calls into the collaborators during one run (`none` is
a nil error). -/
structure World where
  /-- The size in bits of the Go type `int` on the target, 32 or 64. -/
  intSize : Nat
  OpenMutex : Option GoError
  CreateMutex : Option GoError
  /-- The pair `(event, err)` returned by `windows.WaitForSingleObject`. -/
  WaitForSingleObject : Nat × Option GoError
  /-- The value of `os.Getenv("SHADOW_PIDS")`. -/
  Getenv : String
  filter : IPFilterWorld
  NewResolver : Option GoError
  NewHandler : Option GoError
  divertNewDevice : Option GoError
  NewDeviceWithMTU : Option GoError
  /-- The error of the `i`-th call `dev.SetInterfaceAddress(address)`. -/
  SetInterfaceAddress : Nat → String → Option GoError
  Activate : Option GoError
  NewDomainTree : Option GoError
  stackStart : Option GoError
  Listen : Option GoError
  AddRouteEntry : Option GoError

/-- The fields of `App` the setup code uses, and the log of the calls made so far (oldest
first), which is not a field of the Go type. -/
structure App where
  Conf : Conf
  closers : List Closer
  log : List Event

/-- Record one call in the log. -/
def App.emit (app : App) (e : Event) : App :=
  { app with log := app.log ++ [e] }

/-- Modelled from the spec: `App.attachCloser` is called by `tun.go` and `win.go` but defined in
neither.  The spec describes the registered closers as "an ordered list of acquired closers",
so a registration puts the closer at the end of `app.closers`. -/
def App.attachCloser (app : App) (closer : Closer) : App :=
  { app with closers := app.closers ++ [closer], log := app.log ++ [Event.attachCloser closer] }

/-- The loop `for _, closer := range app.closers { closer.Close() }`. -/
def App.closeClosers (app : App) : App :=
  { app with log := app.log ++ app.closers.map Event.Close }

/-- The deferred function `if err != nil { for _, closer := range app.closers { ... } }`, run
with the value `err` holds when the function returns. -/
def deferCloseClosers (err : Option GoError) (app : App) : App :=
  if err ≠ none then app.closeClosers else app

/-- The constant `(2<<10)-4`, the MTU for the TUN device. -/
def tunMTU : Nat := (2 <<< 10) - 4

/-! ### `App.RunWithDevice` (`tun.go`) -/

/-- The last step of `RunWithDevice`, "add route table entry". -/
def RunWithDevice.addRoute (w : World) (app : App) : Option GoError × App :=
  match w.AddRouteEntry with
  | some err => (some (GoError.wrap "add route entry error: %w" err), app.emit (Event.AddRouteEntry false))
  | none => (none, app.emit (Event.AddRouteEntry true))

/-- The step "enable socks5/http proxy" and what follows it.  The `err` of `net.Listen` is a
new variable of the `if` block, and `return err` copies it into the result. -/
def RunWithDevice.proxy (w : World) (app : App) : Option GoError × App :=
  if app.Conf.ProxyServer ≠ "" then
    match w.Listen with
    | some err => (some err, app.emit (Event.Listen app.Conf.ProxyServer false))
    | none =>
      let app := app.emit (Event.Listen app.Conf.ProxyServer true)
      let app := app.emit Event.NewServer
      let app := app.attachCloser Closer.server
      let app := app.emit Event.Serve
      RunWithDevice.addRoute w app
  else RunWithDevice.addRoute w app

/-- The steps "new fake ip tree" and "new netstack" and what follows them.  Both failures
leave through a bare `return`, which returns `err` as it is. -/
def RunWithDevice.netstack (w : World) (app : App) : Option GoError × App :=
  match w.NewDomainTree with
  | some err => (some err, app.emit (Event.NewDomainTree false))
  | none =>
    let app := app.emit (Event.NewDomainTree true)
    let app := app.emit (Event.NewStack (!app.Conf.DomainRules.DisableHijack))
    match w.stackStart with
    | some err => (some err, app.emit (Event.stackStart tunMTU false))
    | none =>
      let app := app.emit (Event.stackStart tunMTU true)
      let app := app.attachCloser Closer.stack
      RunWithDevice.proxy w app

/-- The loop "set tun address" from the `i`-th call on: the first failing call ends the run
with `return err`. -/
def RunWithDevice.setAddresses (w : World) : List String → Nat → App → Option GoError × App
  | [], _, app => (none, app)
  | address :: rest, i, app =>
    match w.SetInterfaceAddress i address with
    | some err => (some err, app.emit (Event.SetInterfaceAddress address false))
    | none =>
      RunWithDevice.setAddresses w rest (i + 1) (app.emit (Event.SetInterfaceAddress address true))

/-- From `app.attachCloser(dev)` on: the addresses, the activation of a device created here,
and the rest. -/
def RunWithDevice.device (w : World) (createDevice : Bool) (app : App) : Option GoError × App :=
  let app := app.attachCloser Closer.dev
  match RunWithDevice.setAddresses w app.Conf.TunAddr 0 app with
  | (some err, app) => (some err, app)
  | (none, app) =>
    if createDevice then
      match w.Activate with
      | some err => (some (GoError.wrap "turn up tun device error: %w" err), app.emit (Event.Activate false))
      | none => RunWithDevice.netstack w (app.emit (Event.Activate true))
    else RunWithDevice.netstack w app

/-- The device name: `"utun"` unless `Conf.TunName` is set. -/
def tunName (conf : Conf) : String :=
  if conf.TunName ≠ "" then conf.TunName else "utun"

/-- The body of `RunWithDevice` below the `defer`: the step "new tun device" and what follows.
`devIsNil` is the test `dev == nil`.  The value is the named result `err` at the return. -/
def RunWithDevice.body (w : World) (devIsNil : Bool) (app : App) : Option GoError × App :=
  let name := tunName app.Conf
  if devIsNil then
    match w.NewDeviceWithMTU with
    | some err =>
      (some (GoError.wrap "tun device from name error: %w" err),
        app.emit (Event.NewDeviceWithMTU name tunMTU false))
    | none => RunWithDevice.device w true (app.emit (Event.NewDeviceWithMTU name tunMTU true))
  else RunWithDevice.device w false app

/-- The method `App.RunWithDevice` of `tun.go`.  Its result `err` is named, so every `return`
stores the returned value in `err` before the deferred function reads it.  The statements
that can neither fail nor reach `app.closers` are left out: the assignment of
`net.DefaultResolver`, the wrapping of the handler in a recorder, and the routes of the HTTP
mux. -/
def RunWithDevice (w : World) (devIsNil : Bool) (app : App) : Option GoError × App :=
  match w.NewResolver with
  | some err => (some (GoError.wrap "dns server error: %w" err), app.emit (Event.NewResolver false))
  | none =>
    let app := app.emit (Event.NewResolver true)
    match w.NewHandler with
    | some err => (some (GoError.wrap "protocol error: %w" err), app.emit (Event.NewHandler false))
    | none =>
      let app := app.emit (Event.NewHandler true)
      let app := app.attachCloser Closer.handler
      let r := RunWithDevice.body w devIsNil app
      (r.1, deferCloseClosers r.1 r.2)

/-! ### `App.Run` of the divert build (`win.go`) -/

/-- The constant `windows.WAIT_OBJECT_0`. -/
def WAIT_OBJECT_0 : Nat := 0x00000000

/-- The constant `windows.WAIT_ABANDONED`. -/
def WAIT_ABANDONED : Nat := 0x00000080

/-- The constant `1500`, the MTU for WinDivert. -/
def divertMTU : Nat := 1500

/-- State at a `return` of the divert `Run`.  The result of `Run` has no name: `return e`
hands `e` to the caller and leaves the local variable `err`, which the deferred functions
read, as it was. -/
structure Return where
  /-- The value handed to the caller. -/
  result : Option GoError
  /-- The value of the local variable `err` of the function body. -/
  err : Option GoError
  deriving DecidableEq

/-- The step "new socks5/http proxy".  It is reached with `err` nil after `stack.Start`; the
`err` of `net.Listen` is a new variable of the `if` block. -/
def Run.proxy (w : World) (app : App) : Return × App :=
  if app.Conf.ProxyServer ≠ "" then
    match w.Listen with
    | some err => (⟨some err, none⟩, app.emit (Event.Listen app.Conf.ProxyServer false))
    | none =>
      let app := app.emit (Event.Listen app.Conf.ProxyServer true)
      let app := app.emit Event.NewServer
      let app := app.attachCloser Closer.server
      let app := app.emit Event.Serve
      (⟨none, none⟩, app)
  else (⟨none, none⟩, app)

/-- The steps "new windivert device", "new fake ip tree", "new netstack" and what follows. -/
def Run.device (w : World) (app : App) : Return × App :=
  match w.divertNewDevice with
  | some err =>
    (⟨some (GoError.wrap "windivert error: %w" err), some err⟩,
      app.emit (Event.divertNewDevice (!app.Conf.DomainRules.DisableHijack) false))
  | none =>
    let app := app.emit (Event.divertNewDevice (!app.Conf.DomainRules.DisableHijack) true)
    let app := app.attachCloser Closer.dev
    match w.NewDomainTree with
    | some err =>
      (⟨some (GoError.wrap "NewDomainTree error: %w" err), some err⟩,
        app.emit (Event.NewDomainTree false))
    | none =>
      let app := app.emit (Event.NewDomainTree true)
      let app := app.emit (Event.NewStack (!app.Conf.DomainRules.DisableHijack))
      match w.stackStart with
      | some err =>
        (⟨some (GoError.wrap "start netstack error: %w" err), some err⟩,
          app.emit (Event.stackStart divertMTU false))
      | none =>
        let app := app.emit (Event.stackStart divertMTU true)
        let app := app.attachCloser Closer.stack
        Run.proxy w app

/-- The second deferred function, `if err != nil { ipFilter.Close() }`. -/
def deferCloseIPFilter (err : Option GoError) (app : App) : App :=
  if err ≠ none then app.emit Event.ipFilterClose else app

/-- The steps "new application filter" and "new ip filter", the second `defer`, and what
follows. -/
def Run.filters (w : World) (app : App) : Return × App :=
  match (NewAppFilter w.intSize w.Getenv app.Conf).2 with
  | some err =>
    (⟨some (GoError.wrap "NewAppFilter error: %w" err), some err⟩,
      app.emit (Event.NewAppFilter false))
  | none =>
    let app := app.emit (Event.NewAppFilter true)
    match (NewIPFilter w.filter app.Conf).2 with
    | some err =>
      (⟨some (GoError.wrap "NewIPFilter error: %w" err), some err⟩,
        app.emit (Event.NewIPFilter false))
    | none =>
      let app := app.emit (Event.NewIPFilter true)
      let app := app.emit Event.IgnorePrivate
      let r := Run.device w app
      (r.1, deferCloseIPFilter r.1.err r.2)

/-- The body of `Run` below the first `defer`: the wait on the mutex, "new dns resolver",
"new connection handler" and what follows. -/
def Run.body (w : World) (app : App) : Return × App :=
  match w.WaitForSingleObject with
  | (event, some err) =>
    (⟨some (GoError.wrap "wait for mutex error: %w" err), some err⟩,
      app.emit (Event.WaitForSingleObject event false))
  | (event, none) =>
    let app := app.emit (Event.WaitForSingleObject event true)
    if event = WAIT_OBJECT_0 ∨ event = WAIT_ABANDONED then
      match w.NewResolver with
      | some err =>
        (⟨some (GoError.wrap "dns server error: %w" err), some err⟩,
          app.emit (Event.NewResolver false))
      | none =>
        let app := app.emit (Event.NewResolver true)
        match w.NewHandler with
        | some err =>
          (⟨some (GoError.wrap "protocol error: %w" err), some err⟩,
            app.emit (Event.NewHandler false))
        | none =>
          let app := app.emit (Event.NewHandler true)
          let app := app.attachCloser Closer.handler
          Run.filters w app
    else
      (⟨some (GoError.errorfV "wait for mutex event id error: %v" event), none⟩, app)

/-- The method `App.Run` of `win.go`: the single-instance mutex, the first `defer`, and the
body.  As in `RunWithDevice`, the assignment of `net.DefaultResolver`, the recorder and the
HTTP mux are left out. -/
def Run (w : World) (app : App) : Option GoError × App :=
  match w.OpenMutex with
  | none =>
    let app := app.emit (Event.OpenMutex true)
    (some (GoError.new "shadow is already running"), app.emit Event.CloseHandle)
  | some _ =>
    let app := app.emit (Event.OpenMutex false)
    match w.CreateMutex with
    | some err =>
      (some (GoError.wrap "create mutex error: %w" err), app.emit (Event.CreateMutex false))
    | none =>
      let app := app.emit (Event.CreateMutex true)
      let app := app.attachCloser Closer.WindowsMutex
      let r := Run.body w app
      (r.1.result, deferCloseClosers r.1.err r.2)

/-! ### Reading the log -/

/-- The closers on which `Close` was called, in the order of the calls. -/
def closedIn (log : List Event) : List Closer :=
  log.filterMap fun e => match e with
    | Event.Close c => some c
    | _ => none

/-- The closers handed to `attachCloser`, in the order of the calls. -/
def registeredIn (log : List Event) : List Closer :=
  log.filterMap fun e => match e with
    | Event.attachCloser c => some c
    | _ => none

/-- Whether an event is a call of `stack.Start`. -/
def Event.isStackStart : Event → Bool
  | Event.stackStart _ _ => true
  | _ => false

/-! ### Fields of `SHADOW_PIDS` -/

/-- The identifier a field of `SHADOW_PIDS` contributes when the loop goes past it. -/
def pidOfField (intSize : Nat) (v : String) : Nat :=
  if v = "" then 0 else uint32 (Atoi intSize v).1

/-- The number a string of decimal digits denotes. -/
def decimalValue (ds : List Char) : Nat :=
  ds.foldl (fun n c => n * 10 + (c.toNat - 48)) 0

/-- A field that is a decimal integer in the range `[0, 2^32)`: one or more decimal digits
whose value is below `2^32`. -/
def IsPID (v : String) : Prop :=
  v.data ≠ [] ∧ (∀ c ∈ v.data, isDecimalDigit c = true) ∧ decimalValue v.data < 2 ^ 32

/-! ### Sample configurations -/

/-- A configuration with every list and string empty and hijacking left on. -/
def emptyConf : Conf :=
  { Server := "", NameServer := "", FilterString := "", ProxyServer := "", TunName := "",
    TunAddr := [], IPCIDRRules := ⟨[]⟩, AppRules := ⟨[]⟩,
    GeoIP := ⟨"", [], [], ""⟩, DomainRules := ⟨false⟩ }

/-- A filter package that adds an entry only when it contains a `/`, and whose `SetGeoIP`
fails when the database file name is empty. -/
def sampleFilterWorld : IPFilterWorld :=
  { UnsafeAdd := fun item => item.data.contains '/',
    SetGeoIP := fun file _ _ _ => if file = "" then some (GoError.ext "open : no such file") else none }

/-- A configuration whose only proxy CIDR entry is not a CIDR, with no GeoIP rule. -/
def badCIDRConf : Conf :=
  { emptyConf with IPCIDRRules := ⟨["not-a-cidr"]⟩ }

/-- A configuration with one proxy CIDR entry and GeoIP rules with final verdict `proxy`. -/
def geoConf : Conf :=
  { emptyConf with IPCIDRRules := ⟨["10.0.0.0/8"]⟩, GeoIP := ⟨"geo.mmdb", ["US"], [], "proxy"⟩ }

instance (v : String) : Decidable (IsPID v) := by
  unfold IsPID
  infer_instance

/-! ### More readings of the log -/

/-- Whether an event is a call that returned a non-nil error. -/
def Event.failed : Event → Bool
  | Event.OpenMutex ok => !ok
  | Event.CreateMutex ok => !ok
  | Event.WaitForSingleObject _ ok => !ok
  | Event.NewResolver ok => !ok
  | Event.NewHandler ok => !ok
  | Event.NewAppFilter ok => !ok
  | Event.NewIPFilter ok => !ok
  | Event.divertNewDevice _ ok => !ok
  | Event.NewDeviceWithMTU _ _ ok => !ok
  | Event.SetInterfaceAddress _ ok => !ok
  | Event.Activate ok => !ok
  | Event.NewDomainTree ok => !ok
  | Event.stackStart _ ok => !ok
  | Event.Listen _ ok => !ok
  | Event.AddRouteEntry ok => !ok
  | _ => false

/-- The events of the loop "set tun address" from the `i`-th call on. -/
def addressEvents (w : World) : List String → Nat → List Event
  | [], _ => []
  | address :: rest, i =>
    match w.SetInterfaceAddress i address with
    | some _ => [Event.SetInterfaceAddress address false]
    | none => Event.SetInterfaceAddress address true :: addressEvents w rest (i + 1)

/-- The error that ends the loop "set tun address" from the `i`-th call on, if any. -/
def addressError (w : World) : List String → Nat → Option GoError
  | [], _ => none
  | address :: rest, i =>
    match w.SetInterfaceAddress i address with
    | some err => some err
    | none => addressError w rest (i + 1)

/-- The part of a log before the first call of `stack.Start`. -/
def beforeStart (log : List Event) : List Event :=
  log.takeWhile fun e => !e.isStackStart

/-- The hijack flags handed to `netstack.NewStack` and to `divert.NewDevice`, in the order
of the calls. -/
def hijackFlags (log : List Event) : List Bool :=
  log.filterMap fun e => match e with
    | Event.NewStack hijack => some hijack
    | Event.divertNewDevice hijack _ => some hijack
    | _ => none

/-! ### Sample worlds -/

/-- A 64-bit world in which every call succeeds: no other instance holds the mutex, the wait
on the mutex yields `WAIT_OBJECT_0`, and `SHADOW_PIDS` is not set. -/
def okWorld : World :=
  { intSize := 64,
    OpenMutex := some (GoError.ext "The system cannot find the file specified."),
    CreateMutex := none,
    WaitForSingleObject := (WAIT_OBJECT_0, none),
    Getenv := "",
    filter := sampleFilterWorld,
    NewResolver := none,
    NewHandler := none,
    divertNewDevice := none,
    NewDeviceWithMTU := none,
    SetInterfaceAddress := fun _ _ => none,
    Activate := none,
    NewDomainTree := none,
    stackStart := none,
    Listen := none,
    AddRouteEntry := none }

/-- A configuration that turns the SOCKS5/HTTP proxy on and gives the TUN device an address. -/
def proxyConf : Conf :=
  { emptyConf with ProxyServer := "127.0.0.1:1080", TunAddr := ["192.168.0.11/24"] }

/-- The error of a `net.Listen` on a port that is taken. -/
def errAddrInUse : GoError :=
  GoError.ext "listen tcp 127.0.0.1:1080: bind: address already in use"

/-- As `okWorld`, but the proxy listener cannot bind. -/
def listenFailWorld : World :=
  { okWorld with Listen := some errAddrInUse }

/-- As `okWorld`, but the wait on the mutex yields `WAIT_TIMEOUT` with a nil error. -/
def badEventWorld : World :=
  { okWorld with WaitForSingleObject := (0x00000102, none) }

/-- As `okWorld`, but `stack.Start` fails. -/
def startFailWorld : World :=
  { okWorld with stackStart := some (GoError.ext "start: device closed") }

/-- As `okWorld`, but `NewDomainTree` fails. -/
def treeFailWorld : World :=
  { okWorld with NewDomainTree := some (GoError.ext "invalid domain rule") }

/-- As `okWorld`, but the first `SetInterfaceAddress` fails. -/
def addressFailWorld : World :=
  { okWorld with SetInterfaceAddress := fun _ _ => some (GoError.ext "invalid address") }

/-! # Theorems

## The filter constructors -/

theorem ipUnsafeAddAll_calls (w : IPFilterWorld) (items : List String) (f : IPFilter) :
    (ipUnsafeAddAll w items f).calls
      = f.calls ++ items.map fun item => IPFilterCall.UnsafeAdd item (w.UnsafeAdd item) := by
  induction items generalizing f with
  | nil => simp [ipUnsafeAddAll]
  | cons item rest ih => simp [ipUnsafeAddAll, ih]

theorem countSetGeoIP_append (xs ys : List IPFilterCall) :
    countSetGeoIP (xs ++ ys) = countSetGeoIP xs + countSetGeoIP ys := by
  simp [countSetGeoIP]

theorem countSetGeoIP_unsafeAdd (w : IPFilterWorld) (items : List String) :
    countSetGeoIP (items.map fun item => IPFilterCall.UnsafeAdd item (w.UnsafeAdd item)) = 0 := by
  induction items with
  | nil => rfl
  | cons item rest ih =>
    simp [countSetGeoIP] at ih ⊢

theorem appUnsafeAddAll_calls (items : List String) (f : AppFilter) :
    (appUnsafeAddAll items f).calls = f.calls ++ items.map AppFilterCall.UnsafeAdd := by
  induction items generalizing f with
  | nil => simp [appUnsafeAddAll]
  | cons item rest ih => simp [appUnsafeAddAll, ih]

theorem Atoi_empty (intSize : Nat) :
    Atoi intSize "" = (0, some (GoError.numInvalid "Atoi" "")) := by
  have h0 : ("" : String).utf8ByteSize = 0 := by decide
  simp [Atoi, parseInt, h0]

theorem parsePIDs_ok_of_all (intSize : Nat) (fields : List String) (ids : List Nat)
    (h : ∀ v ∈ fields, v ≠ "" → (Atoi intSize v).2 = none) :
    parsePIDs intSize fields ids = Except.ok (ids ++ fields.map (pidOfField intSize)) := by
  induction fields generalizing ids with
  | nil => simp [parsePIDs]
  | cons v rest ih =>
    have hrest : ∀ u ∈ rest, u ≠ "" → (Atoi intSize u).2 = none :=
      fun u hu => h u (List.mem_cons_of_mem _ hu)
    by_cases hv : v = ""
    · subst hv
      rw [parsePIDs, Atoi_empty]
      simp [ih _ hrest, pidOfField, uint32]
    · have hnone := h v (List.mem_cons_self _ _) hv
      rw [parsePIDs]
      rcases hA : Atoi intSize v with ⟨i, e⟩
      rw [hA] at hnone
      simp only at hnone
      subst hnone
      simp [ih _ hrest, pidOfField, hv, hA]

theorem parsePIDs_error_of_exists (intSize : Nat) (fields : List String) (ids : List Nat)
    (h : ∃ v ∈ fields, v ≠ "" ∧ (Atoi intSize v).2 ≠ none) :
    ∃ err, parsePIDs intSize fields ids = Except.error err := by
  induction fields generalizing ids with
  | nil => simp at h
  | cons v rest ih =>
    rw [parsePIDs]
    rcases hA : Atoi intSize v with ⟨i, e⟩
    cases e with
    | some err =>
      by_cases hv : v = ""
      · have hrest : ∃ u ∈ rest, u ≠ "" ∧ (Atoi intSize u).2 ≠ none := by
          obtain ⟨u, hu, hne, herr⟩ := h
          rcases List.mem_cons.mp hu with rfl | hu
          · exact absurd hv hne
          · exact ⟨u, hu, hne, herr⟩
        simpa [hv] using ih _ hrest
      · exact ⟨GoError.wrapV "strconv (%v) err: %w" v err, by simp [hv]⟩
    | none =>
      have hrest : ∃ u ∈ rest, u ≠ "" ∧ (Atoi intSize u).2 ≠ none := by
        obtain ⟨u, hu, hne, herr⟩ := h
        rcases List.mem_cons.mp hu with rfl | hu
        · rw [hA] at herr
          exact absurd rfl herr
        · exact ⟨u, hu, hne, herr⟩
      simpa using ih _ hrest

/-! ### `strconv.Atoi` on decimal fields -/

theorem foldl_digits_ge (ds : List Char) (n : Nat) :
    n ≤ ds.foldl (fun n c => n * 10 + (c.toNat - 48)) n := by
  induction ds generalizing n with
  | nil => simp
  | cons c rest ih =>
    simp only [List.foldl_cons]
    exact le_trans (by omega) (ih _)

theorem atoiFastLoop_digits (ds : List Char) (n : Nat)
    (h : ∀ c ∈ ds, isDecimalDigit c = true) :
    atoiFastLoop ds n = some (ds.foldl (fun n c => n * 10 + (c.toNat - 48)) n) := by
  induction ds generalizing n with
  | nil => simp [atoiFastLoop]
  | cons c rest ih =>
    have hc := h c (List.mem_cons_self _ _)
    simp [atoiFastLoop, hc, ih _ (fun d hd => h d (List.mem_cons_of_mem _ hd))]

theorem parseUintLoop_digits (bitSize : Nat) (hbits : bitSize = 32 ∨ bitSize = 64)
    (ds : List Char) (n : Nat) (h : ∀ c ∈ ds, isDecimalDigit c = true)
    (hlt : ds.foldl (fun n c => n * 10 + (c.toNat - 48)) n < 2 ^ 32) :
    parseUintLoop bitSize ds n
      = UintResult.ok (ds.foldl (fun n c => n * 10 + (c.toNat - 48)) n) := by
  induction ds generalizing n with
  | nil => simp [parseUintLoop]
  | cons c rest ih =>
    have hc := h c (List.mem_cons_self _ _)
    simp only [List.foldl_cons] at hlt ⊢
    have hge := foldl_digits_ge rest (n * 10 + (c.toNat - 48))
    have hsmall : n * 10 + (c.toNat - 48) < 2 ^ 32 := lt_of_le_of_lt hge hlt
    have h32 : (2 : Nat) ^ 32 = 4294967296 := by norm_num
    have h64 : ((2 : Nat) ^ 64 - 1) / 10 + 1 = 1844674407370955162 := by norm_num
    have h64m : (2 : Nat) ^ 64 - 1 = 18446744073709551615 := by norm_num
    have hmax : (2 : Nat) ^ 32 - 1 ≤ 2 ^ bitSize - 1 := by
      rcases hbits with rfl | rfl <;> norm_num
    rw [parseUintLoop]
    rw [h32] at hsmall hmax
    have h1 : ¬ (n ≥ (2 ^ 64 - 1) / 10 + 1) := by rw [h64]; omega
    have h2 : ¬ (n * 10 + (c.toNat - 48) > 2 ^ 64 - 1 ∨
        n * 10 + (c.toNat - 48) > 2 ^ bitSize - 1) := by
      rw [h64m]; omega
    simp only [hc, if_true, h1, h2, if_false]
    exact ih _ (fun d hd => h d (List.mem_cons_of_mem _ hd)) hlt

theorem digit_ne_sign (c : Char) (h : isDecimalDigit c = true) : c ≠ '-' ∧ c ≠ '+' := by
  constructor
  · rintro rfl
    revert h
    decide
  · rintro rfl
    revert h
    decide

theorem Atoi_of_IsPID (intSize : Nat) (hbits : intSize = 32 ∨ intSize = 64) (v : String)
    (h : IsPID v) (hint : decimalValue v.data < 2 ^ (intSize - 1)) :
    Atoi intSize v = (((decimalValue v.data : Nat) : Int), none) := by
  obtain ⟨hne, hdig, hlt⟩ := h
  rcases hdata : v.data with _ | ⟨c, rest⟩
  · exact absurd hdata hne
  · have hc := digit_ne_sign c (hdig c (by rw [hdata]; exact List.mem_cons_self _ _))
    have hdig2 : ∀ d ∈ c :: rest, isDecimalDigit d = true := by
      rw [← hdata]; exact hdig
    rw [hdata] at hlt hint
    unfold Atoi
    split
    · simp only [hdata, hc.1, hc.2, or_self, if_false]
      rw [atoiFastLoop_digits _ _ hdig2]
      simp [decimalValue]
    · unfold parseInt
      simp only [hdata, hc.1, hc.2, or_self, if_false]
      rw [parseUintLoop_digits intSize hbits _ _ hdig2 hlt]
      have h3 : ¬ ((c :: rest).foldl (fun n c => n * 10 + (c.toNat - 48)) 0
          ≥ 2 ^ (intSize - 1)) := not_le.mpr hint
      simpa [decimalValue] using h3

theorem pidOfField_of_IsPID (intSize : Nat) (hbits : intSize = 32 ∨ intSize = 64) (v : String)
    (h : IsPID v) (hint : decimalValue v.data < 2 ^ (intSize - 1)) :
    pidOfField intSize v = decimalValue v.data := by
  have hne : v ≠ "" := by
    rintro rfl
    exact h.1 rfl
  have hlt : decimalValue v.data < 2 ^ 32 := h.2.2
  simp only [pidOfField, hne, if_false, Atoi_of_IsPID intSize hbits v h hint, uint32]
  have h1 : ((decimalValue v.data : Nat) : Int) % (2 ^ 32 : Int) = (decimalValue v.data : Nat) := by
    apply Int.emod_eq_of_lt
    · exact Int.ofNat_nonneg _
    · exact_mod_cast hlt
  rw [h1]
  simp

/-! ### `strings.Split` on a comma-joined list -/

theorem splitComma_no_comma (l : List Char) (h : ',' ∉ l) : splitComma l = [l] := by
  induction l with
  | nil => simp [splitComma]
  | cons c rest ih =>
    have hc : c ≠ ',' := fun e => h (by rw [e]; exact List.mem_cons_self _ _)
    have hr : ',' ∉ rest := fun m => h (List.mem_cons_of_mem _ m)
    simp [splitComma, hc, ih hr]

theorem splitComma_append_comma (l r : List Char) (h : ',' ∉ l) :
    splitComma (l ++ ',' :: r) = l :: splitComma r := by
  induction l with
  | nil => simp [splitComma]
  | cons c rest ih =>
    have hc : c ≠ ',' := fun e => h (by rw [e]; exact List.mem_cons_self _ _)
    have hr : ',' ∉ rest := fun m => h (List.mem_cons_of_mem _ m)
    simp [splitComma, hc, ih hr]

theorem intercalate_go_data (acc : String) (fields : List String) :
    (String.intercalate.go acc "," fields).data
      = acc.data ++ (fields.map fun v => ',' :: v.data).flatten := by
  induction fields generalizing acc with
  | nil => simp [String.intercalate.go]
  | cons v rest ih =>
    simp [String.intercalate.go, ih, String.data_append]

theorem splitComma_joined (l : List Char) (fields : List String) (hl : ',' ∉ l)
    (h : ∀ v ∈ fields, ',' ∉ v.data) :
    splitComma (l ++ (fields.map fun v => ',' :: v.data).flatten) = l :: fields.map String.data := by
  induction fields generalizing l with
  | nil => simp [splitComma_no_comma l hl]
  | cons v rest ih =>
    have hv := h v (List.mem_cons_self _ _)
    have := ih v.data hv (fun u hu => h u (List.mem_cons_of_mem _ hu))
    simp only [List.map_cons, List.flatten_cons, List.cons_append]
    rw [splitComma_append_comma _ _ hl, this]

theorem Split_intercalate (fields : List String) (hne : fields ≠ [])
    (h : ∀ v ∈ fields, ',' ∉ v.data) : Split (",".intercalate fields) = fields := by
  cases fields with
  | nil => exact absurd rfl hne
  | cons v rest =>
    unfold Split String.intercalate
    rw [intercalate_go_data,
      splitComma_joined v.data rest (h v (List.mem_cons_self _ _))
        (fun u hu => h u (List.mem_cons_of_mem _ hu))]
    have hid : ∀ l : List String, l.map (String.mk ∘ String.data) = l := by
      intro l
      induction l with
      | nil => rfl
      | cons a l ih => simp [ih]
    simp [hid]

theorem IsPID_no_comma (v : String) (h : IsPID v) : ',' ∉ v.data := by
  intro hm
  have := h.2.1 ',' hm
  revert this
  decide

/-! ### The claims on `NewIPFilter` and `NewAppFilter` -/

/-- C4, as stated, fails: with the proxy CIDR list `["not-a-cidr"]`, which the filter does not
add, and no GeoIP rule, `NewIPFilter` returns a nil error. -/
theorem NewIPFilter_invalid_cidr_nil_error :
    (∃ item ∈ badCIDRConf.IPCIDRRules.Proxy, sampleFilterWorld.UnsafeAdd item = false) ∧
      (NewIPFilter sampleFilterWorld badCIDRConf).2 = none := by
  decide

/-- C4, amended: the error `NewIPFilter` returns is nil when both GeoIP country lists are
empty and is the error of `SetGeoIP` otherwise; whether `UnsafeAdd` adds the proxy CIDR
entries (the function `add`) has no part in it. -/
theorem NewIPFilter_error_is_SetGeoIP_error (add : String → Bool)
    (setGeoIP : String → List String → List String → Bool → Option GoError) (conf : Conf) :
    (NewIPFilter ⟨add, setGeoIP⟩ conf).2
      = if conf.GeoIP.Proxy = [] ∧ conf.GeoIP.Bypass = [] then none
        else setGeoIP conf.GeoIP.File conf.GeoIP.Proxy conf.GeoIP.Bypass
          (decide (conf.GeoIP.Final = "proxy")) := by
  unfold NewIPFilter
  by_cases h : conf.GeoIP.Proxy = [] ∧ conf.GeoIP.Bypass = []
  · simp [h.1, h.2]
  · have h2 : ¬ (conf.GeoIP.Proxy.length = 0 ∧ conf.GeoIP.Bypass.length = 0) := by
      simpa [List.length_eq_zero] using h
    simp only [h, h2, if_false]

/-- C9: `NewIPFilter` calls `SetGeoIP` once when one of `Conf.GeoIP.Proxy` and
`Conf.GeoIP.Bypass` is non-empty and not at all when both are empty; the call gets the file
and the two lists of the configuration and a flag that is `true` exactly when
`Conf.GeoIP.Final` is `"proxy"`; with both lists empty the result is the filter with the proxy
CIDR entries and a nil error, whatever the file and `Final` are. -/
theorem NewIPFilter_SetGeoIP (w : IPFilterWorld) (conf : Conf) :
    (countSetGeoIP (NewIPFilter w conf).1.calls
        = if conf.GeoIP.Proxy = [] ∧ conf.GeoIP.Bypass = [] then 0 else 1) ∧
    (∀ file proxy bypass final,
        IPFilterCall.SetGeoIP file proxy bypass final ∈ (NewIPFilter w conf).1.calls →
          file = conf.GeoIP.File ∧ proxy = conf.GeoIP.Proxy ∧ bypass = conf.GeoIP.Bypass ∧
            (final = true ↔ conf.GeoIP.Final = "proxy")) ∧
    (conf.GeoIP.Proxy = [] ∧ conf.GeoIP.Bypass = [] →
        ∀ file final,
          NewIPFilter w { conf with GeoIP := ⟨file, [], [], final⟩ }
            = (⟨[IPFilterCall.Lock]
                ++ (conf.IPCIDRRules.Proxy.map fun item =>
                      IPFilterCall.UnsafeAdd item (w.UnsafeAdd item))
                ++ [IPFilterCall.Unlock]⟩, none)) := by
  refine ⟨?_, ?_, ?_⟩
  · unfold NewIPFilter
    by_cases h : conf.GeoIP.Proxy = [] ∧ conf.GeoIP.Bypass = []
    · simp [h.1, h.2, ipUnsafeAddAll_calls, countSetGeoIP_append, countSetGeoIP_unsafeAdd]
      simp [countSetGeoIP]
    · have h2 : ¬ (conf.GeoIP.Proxy.length = 0 ∧ conf.GeoIP.Bypass.length = 0) := by
        simpa [List.length_eq_zero] using h
      simp only [h, h2, if_false, ipUnsafeAddAll_calls, countSetGeoIP_append,
        countSetGeoIP_unsafeAdd]
      simp [countSetGeoIP]
  · intro file proxy bypass final hmem
    unfold NewIPFilter at hmem
    by_cases h2 : conf.GeoIP.Proxy.length = 0 ∧ conf.GeoIP.Bypass.length = 0
    · simp [h2, ipUnsafeAddAll_calls] at hmem
    · simp only [h2, if_false, ipUnsafeAddAll_calls] at hmem
      simp at hmem
      obtain ⟨rfl, rfl, rfl, hf⟩ := hmem
      refine ⟨rfl, rfl, rfl, ?_⟩
      rw [hf]
      simp
  · intro _ file final
    simp [NewIPFilter, ipUnsafeAddAll_calls]

/-- Witness of C9 on a configuration with GeoIP rules and on one without. -/
theorem NewIPFilter_SetGeoIP_witness :
    countSetGeoIP (NewIPFilter sampleFilterWorld geoConf).1.calls = 1 ∧
    IPFilterCall.SetGeoIP "geo.mmdb" ["US"] [] true ∈ (NewIPFilter sampleFilterWorld geoConf).1.calls ∧
    NewIPFilter sampleFilterWorld { badCIDRConf with GeoIP := ⟨"any.mmdb", [], [], "proxy"⟩ }
      = (⟨[IPFilterCall.Lock, IPFilterCall.UnsafeAdd "not-a-cidr" false, IPFilterCall.Unlock]⟩,
          none) :=
  ⟨(NewIPFilter_SetGeoIP sampleFilterWorld geoConf).1, by decide,
    (NewIPFilter_SetGeoIP sampleFilterWorld badCIDRConf).2.2 ⟨rfl, rfl⟩ "any.mmdb" "proxy"⟩

/-- C6, as stated, fails where `int` has 32 bits: `SHADOW_PIDS=1234,0,4294967295` is a list of
decimal integers in `[0, 2^32)`, and `NewAppFilter` returns no filter and the range error of
`strconv.Atoi` on the last field. -/
theorem NewAppFilter_rejects_pid_on_32_bit :
    (∀ v ∈ ["1234", "0", "4294967295"], IsPID v) ∧
    NewAppFilter 32 (",".intercalate ["1234", "0", "4294967295"]) emptyConf
      = (none, some (GoError.wrapV "strconv (%v) err: %w" "4294967295"
          (GoError.numRange "Atoi" "4294967295"))) := by
  decide

/-- C6, amended: when `SHADOW_PIDS` is a comma-separated list of one or more fields, each a
decimal integer in `[0, 2^32)` that is also below `2^(intSize-1)`, where `intSize` is the
size of `int` on the target (so in `[0, 2^32)` for 64 bits and in `[0, 2^31)` for 32 bits),
`NewAppFilter` returns a filter and a nil error, `strings.Split` sees exactly those fields,
and the one `SetPIDs` call gets the values of the fields, in their order, one per field. -/
theorem NewAppFilter_decimal_pids (intSize : Nat) (hbits : intSize = 32 ∨ intSize = 64)
    (conf : Conf) (fields : List String) (hne : fields ≠ [])
    (hpid : ∀ v ∈ fields, IsPID v)
    (hint : ∀ v ∈ fields, decimalValue v.data < 2 ^ (intSize - 1)) :
    Split (",".intercalate fields) = fields ∧
    NewAppFilter intSize (",".intercalate fields) conf
      = (some ⟨[AppFilterCall.Lock] ++ conf.AppRules.Proxy.map AppFilterCall.UnsafeAdd
            ++ [AppFilterCall.Unlock,
                AppFilterCall.SetPIDs (fields.map fun v => decimalValue v.data)]⟩, none) ∧
    (fields.map fun v => decimalValue v.data).length = fields.length := by
  have hsplit : Split (",".intercalate fields) = fields :=
    Split_intercalate fields hne (fun v hv => IsPID_no_comma v (hpid v hv))
  have henv : ",".intercalate fields ≠ "" := by
    intro h
    rw [h] at hsplit
    have h0 : [""] = fields := by
      rw [← hsplit]
      decide
    exact (hpid "" (by rw [← h0]; exact List.mem_cons_self _ _)).1 rfl
  have hparse : parsePIDs intSize fields []
      = Except.ok (fields.map fun v => decimalValue v.data) := by
    rw [parsePIDs_ok_of_all intSize fields [] (fun v hv _ => by
      rw [Atoi_of_IsPID intSize hbits v (hpid v hv) (hint v hv)])]
    simp only [List.nil_append]
    congr 1
    exact List.map_congr_left
      (fun v hv => pidOfField_of_IsPID intSize hbits v (hpid v hv) (hint v hv))
  refine ⟨hsplit, ?_, by simp⟩
  unfold NewAppFilter
  simp [henv, hsplit, hparse, appUnsafeAddAll_calls]

/-- Witness of C6, amended: `SHADOW_PIDS=1234,0,4294967295` with a 64-bit `int` and
`SHADOW_PIDS=1234,0,2147483647` with a 32-bit `int`. -/
theorem NewAppFilter_decimal_pids_witness :
    NewAppFilter 64 "1234,0,4294967295" emptyConf
      = (some ⟨[AppFilterCall.Lock, AppFilterCall.Unlock,
          AppFilterCall.SetPIDs [1234, 0, 4294967295]]⟩, none) ∧
    NewAppFilter 32 "1234,0,2147483647" emptyConf
      = (some ⟨[AppFilterCall.Lock, AppFilterCall.Unlock,
          AppFilterCall.SetPIDs [1234, 0, 2147483647]]⟩, none) :=
  ⟨(NewAppFilter_decimal_pids 64 (Or.inr rfl) emptyConf ["1234", "0", "4294967295"]
      (by decide) (by decide) (by decide)).2.1,
    (NewAppFilter_decimal_pids 32 (Or.inl rfl) emptyConf ["1234", "0", "2147483647"]
      (by decide) (by decide) (by decide)).2.1⟩

/-- C10: for a non-empty `SHADOW_PIDS`, on a target of any `int` size, `NewAppFilter` returns
an error exactly when some non-empty field is rejected by `strconv.Atoi`, and then it returns
no filter; otherwise the one `SetPIDs` call gets one identifier per field, `0` for an empty
field and the parsed value, converted to `uint32`, for any other. -/
theorem NewAppFilter_error_iff (intSize : Nat) (conf : Conf) (env : String) (henv : env ≠ "") :
    ((NewAppFilter intSize env conf).2 ≠ none
      ↔ ∃ v ∈ Split env, v ≠ "" ∧ (Atoi intSize v).2 ≠ none) ∧
    ((NewAppFilter intSize env conf).2 ≠ none → (NewAppFilter intSize env conf).1 = none) ∧
    ((NewAppFilter intSize env conf).2 = none →
      (NewAppFilter intSize env conf).1
        = some ⟨[AppFilterCall.Lock] ++ conf.AppRules.Proxy.map AppFilterCall.UnsafeAdd
            ++ [AppFilterCall.Unlock,
                AppFilterCall.SetPIDs
                  ((Split env).map fun v =>
                    if v = "" then 0 else uint32 (Atoi intSize v).1)]⟩) ∧
    ((Split env).map fun v => if v = "" then 0 else uint32 (Atoi intSize v).1).length
      = (Split env).length := by
  have hfun : (fun v => if v = "" then 0 else uint32 (Atoi intSize v).1)
      = pidOfField intSize := by
    funext v
    rfl
  rw [hfun]
  by_cases hex : ∃ v ∈ Split env, v ≠ "" ∧ (Atoi intSize v).2 ≠ none
  · obtain ⟨err, herr⟩ := parsePIDs_error_of_exists intSize (Split env) [] hex
    have hres : NewAppFilter intSize env conf = (none, some err) := by
      unfold NewAppFilter
      simp [henv, herr]
    simp [hres, hex]
  · have hall : ∀ v ∈ Split env, v ≠ "" → (Atoi intSize v).2 = none := by
      intro v hv hne
      by_contra hc
      exact hex ⟨v, hv, hne, hc⟩
    have hok := parsePIDs_ok_of_all intSize (Split env) [] hall
    have hres : NewAppFilter intSize env conf
        = (some ⟨[AppFilterCall.Lock] ++ conf.AppRules.Proxy.map AppFilterCall.UnsafeAdd
            ++ [AppFilterCall.Unlock,
                AppFilterCall.SetPIDs ((Split env).map (pidOfField intSize))]⟩,
            none) := by
      unfold NewAppFilter
      simp [henv, hok, appUnsafeAddAll_calls]
    rw [hres]
    refine ⟨?_, ?_, ?_, by simp⟩
    · simp only [ne_eq, not_true_eq_false, false_iff]
      exact hex
    · intro h
      exact absurd rfl h
    · intro _
      rfl

/-- Witness of C10 on `SHADOW_PIDS=,7,,x` (rejected because of `x`) and on `SHADOW_PIDS=,7,`
(accepted, with `0` for the two empty fields), for a 64-bit and for a 32-bit `int`. -/
theorem NewAppFilter_error_iff_witness :
    (NewAppFilter 64 ",7,,x" emptyConf).1 = none ∧
    (NewAppFilter 32 ",7," emptyConf).1
      = some ⟨[AppFilterCall.Lock, AppFilterCall.Unlock, AppFilterCall.SetPIDs [0, 7, 0]]⟩ :=
  ⟨(NewAppFilter_error_iff 64 emptyConf ",7,,x" (by decide)).2.1 (by decide),
    (NewAppFilter_error_iff 32 emptyConf ",7," (by decide)).2.2.1 (by decide)⟩

/-! ## The runs

### The log of a run -/

theorem setAddresses_eq (w : World) (addrs : List String) (i : Nat) (app : App) :
    RunWithDevice.setAddresses w addrs i app
      = (addressError w addrs i, { app with log := app.log ++ addressEvents w addrs i }) := by
  induction addrs generalizing i app with
  | nil => simp [RunWithDevice.setAddresses, addressError, addressEvents]
  | cons a rest ih =>
    unfold RunWithDevice.setAddresses addressError addressEvents
    cases h : w.SetInterfaceAddress i a with
    | some err => simp [App.emit]
    | none => simp [App.emit, ih]

theorem addressEvents_shape (w : World) (addrs : List String) (i : Nat) :
    ∀ e ∈ addressEvents w addrs i, ∃ a ok, e = Event.SetInterfaceAddress a ok := by
  induction addrs generalizing i with
  | nil => simp [addressEvents]
  | cons a rest ih =>
    unfold addressEvents
    cases h : w.SetInterfaceAddress i a with
    | some err => simp
    | none =>
      intro e he
      simp only [List.mem_cons] at he
      rcases he with rfl | he
      · exact ⟨a, true, rfl⟩
      · exact ih _ e he

theorem closedIn_append (xs ys : List Event) : closedIn (xs ++ ys) = closedIn xs ++ closedIn ys := by
  simp [closedIn]

theorem registeredIn_append (xs ys : List Event) :
    registeredIn (xs ++ ys) = registeredIn xs ++ registeredIn ys := by
  simp [registeredIn]

theorem closedIn_map_Close (cs : List Closer) : closedIn (cs.map Event.Close) = cs := by
  induction cs with
  | nil => rfl
  | cons c rest ih =>
    simp only [closedIn] at ih
    simp [closedIn, ih]

theorem registeredIn_map_Close (cs : List Closer) : registeredIn (cs.map Event.Close) = [] := by
  induction cs with
  | nil => rfl
  | cons c rest ih =>
    simp only [registeredIn] at ih
    simp [registeredIn, ih]

theorem closedIn_addressEvents (w : World) (addrs : List String) (i : Nat) :
    closedIn (addressEvents w addrs i) = [] := by
  have h := addressEvents_shape w addrs i
  generalize addressEvents w addrs i = evs at h
  induction evs with
  | nil => rfl
  | cons e rest ih =>
    obtain ⟨a, ok, rfl⟩ := h e (List.mem_cons_self _ _)
    simpa [closedIn] using ih (fun x hx => h x (List.mem_cons_of_mem _ hx))

theorem registeredIn_addressEvents (w : World) (addrs : List String) (i : Nat) :
    registeredIn (addressEvents w addrs i) = [] := by
  have h := addressEvents_shape w addrs i
  generalize addressEvents w addrs i = evs at h
  induction evs with
  | nil => rfl
  | cons e rest ih =>
    obtain ⟨a, ok, rfl⟩ := h e (List.mem_cons_self _ _)
    simpa [registeredIn] using ih (fun x hx => h x (List.mem_cons_of_mem _ hx))

theorem addressEvents_not_start (w : World) (addrs : List String) (i : Nat) :
    ∀ e ∈ addressEvents w addrs i, (!e.isStackStart) = true := by
  intro e he
  obtain ⟨a, ok, rfl⟩ := addressEvents_shape w addrs i e he
  rfl

theorem addressError_eq_none_iff (w : World) (addrs : List String) (i : Nat) :
    addressError w addrs i = none
      ↔ ∀ k a, addrs[k]? = some a → w.SetInterfaceAddress (i + k) a = none := by
  induction addrs generalizing i with
  | nil => simp [addressError]
  | cons a rest ih =>
    unfold addressError
    cases h : w.SetInterfaceAddress i a with
    | some err =>
      simp only [false_iff, not_forall, reduceCtorEq]
      exact ⟨0, a, by simp, by simp [h]⟩
    | none =>
      simp only [ih (i + 1)]
      constructor
      · intro hall k b hk
        cases k with
        | zero =>
          simp only [List.getElem?_cons_zero, Option.some.injEq] at hk
          subst hk
          simpa using h
        | succ k =>
          simp only [List.getElem?_cons_succ] at hk
          have := hall k b hk
          rwa [Nat.add_assoc, Nat.add_comm 1 k] at this
      · intro hall k b hk
        have := hall (k + 1) b (by simpa using hk)
        rwa [Nat.add_assoc, Nat.add_comm 1 k]

theorem closedIn_nil : closedIn [] = [] := rfl

theorem registeredIn_nil : registeredIn [] = [] := rfl

theorem hijackFlags_nil : hijackFlags [] = [] := rfl

theorem closedIn_cons (e : Event) (l : List Event) :
    closedIn (e :: l) = (match e with | Event.Close c => [c] | _ => []) ++ closedIn l := by
  cases e <;> simp [closedIn]

theorem registeredIn_cons (e : Event) (l : List Event) :
    registeredIn (e :: l)
      = (match e with | Event.attachCloser c => [c] | _ => []) ++ registeredIn l := by
  cases e <;> simp [registeredIn]

theorem hijackFlags_cons (e : Event) (l : List Event) :
    hijackFlags (e :: l)
      = (match e with
          | Event.NewStack hijack => [hijack]
          | Event.divertNewDevice hijack _ => [hijack]
          | _ => []) ++ hijackFlags l := by
  cases e <;> simp [hijackFlags]

theorem hijackFlags_append (xs ys : List Event) :
    hijackFlags (xs ++ ys) = hijackFlags xs ++ hijackFlags ys := by
  simp [hijackFlags]

theorem hijackFlags_map_Close (cs : List Closer) : hijackFlags (cs.map Event.Close) = [] := by
  induction cs with
  | nil => rfl
  | cons c rest ih => simp [hijackFlags_cons, ih]

theorem hijackFlags_addressEvents (w : World) (addrs : List String) (i : Nat) :
    hijackFlags (addressEvents w addrs i) = [] := by
  have h := addressEvents_shape w addrs i
  generalize addressEvents w addrs i = evs at h
  induction evs with
  | nil => rfl
  | cons e rest ih =>
    obtain ⟨a, ok, rfl⟩ := h e (List.mem_cons_self _ _)
    simp [hijackFlags_cons, ih (fun x hx => h x (List.mem_cons_of_mem _ hx))]

theorem addressEvents_any_failed (w : World) (addrs : List String) (i : Nat) :
    (addressEvents w addrs i).any Event.failed = (addressError w addrs i).isSome := by
  induction addrs generalizing i with
  | nil => simp [addressEvents, addressError]
  | cons a rest ih =>
    unfold addressEvents addressError
    cases h : w.SetInterfaceAddress i a with
    | some err => simp [Event.failed]
    | none =>
      have := ih (i + 1)
      simp [Event.failed, this]

theorem addressEvents_any_start (w : World) (addrs : List String) (i : Nat) :
    (addressEvents w addrs i).any Event.isStackStart = false := by
  have h := addressEvents_shape w addrs i
  generalize addressEvents w addrs i = evs at h
  induction evs with
  | nil => rfl
  | cons e rest ih =>
    obtain ⟨a, ok, rfl⟩ := h e (List.mem_cons_self _ _)
    simp [Event.isStackStart, ih (fun x hx => h x (List.mem_cons_of_mem _ hx))]

theorem map_Close_any_failed (cs : List Closer) :
    (cs.map Event.Close).any Event.failed = false := by
  induction cs with
  | nil => rfl
  | cons c rest ih => simp [Event.failed, ih]

theorem map_Close_any_start (cs : List Closer) :
    (cs.map Event.Close).any Event.isStackStart = false := by
  induction cs with
  | nil => rfl
  | cons c rest ih => simp [Event.isStackStart, ih]

theorem beforeStart_cons (e : Event) (l : List Event) :
    beforeStart (e :: l) = if e.isStackStart then [] else e :: beforeStart l := by
  cases h : e.isStackStart <;> simp [beforeStart, List.takeWhile_cons, h]

theorem beforeStart_addressEvents_append (w : World) (addrs : List String) (i : Nat)
    (l : List Event) :
    beforeStart (addressEvents w addrs i ++ l) = addressEvents w addrs i ++ beforeStart l := by
  unfold beforeStart
  exact List.takeWhile_append_of_pos (addressEvents_not_start w addrs i)

/-- Everything found before the first `stack.Start` of a log precedes any given call of
`stack.Start` in it. -/
theorem mem_pre_of_mem_beforeStart (pre post : List Event) (e x : Event)
    (he : e.isStackStart = true) (hx : x ∈ beforeStart (pre ++ e :: post)) : x ∈ pre := by
  induction pre with
  | nil => simp [beforeStart_cons, he] at hx
  | cons a rest ih =>
    rw [List.cons_append, beforeStart_cons] at hx
    cases ha : a.isStackStart with
    | true => simp [ha] at hx
    | false =>
      simp only [ha, Bool.false_eq_true, if_false, List.mem_cons] at hx
      rcases hx with rfl | hx
      · exact List.mem_cons_self _ _
      · exact List.mem_cons_of_mem _ (ih hx)

/-- What one run of `RunWithDevice` leaves in the closer list and in the log. -/
theorem RunWithDevice_summary (w : World) (devIsNil : Bool) (conf : Conf)
    (closers : List Closer) :
    (RunWithDevice w devIsNil ⟨conf, closers, []⟩).2.closers
        = closers ++ registeredIn (RunWithDevice w devIsNil ⟨conf, closers, []⟩).2.log ∧
    closedIn (RunWithDevice w devIsNil ⟨conf, closers, []⟩).2.log
        = (if w.NewResolver = none ∧ w.NewHandler = none ∧
              (RunWithDevice w devIsNil ⟨conf, closers, []⟩).1 ≠ none
            then (RunWithDevice w devIsNil ⟨conf, closers, []⟩).2.closers else []) ∧
    (RunWithDevice w devIsNil ⟨conf, closers, []⟩).1.isSome
        = (RunWithDevice w devIsNil ⟨conf, closers, []⟩).2.log.any Event.failed ∧
    ((RunWithDevice w devIsNil ⟨conf, closers, []⟩).2.log.any Event.isStackStart = true →
        (w.NewResolver = none ∧ w.NewHandler = none ∧ w.NewDomainTree = none) ∧
        Event.NewResolver true ∈ beforeStart (RunWithDevice w devIsNil ⟨conf, closers, []⟩).2.log ∧
        Event.NewHandler true ∈ beforeStart (RunWithDevice w devIsNil ⟨conf, closers, []⟩).2.log ∧
        Event.NewDomainTree true
          ∈ beforeStart (RunWithDevice w devIsNil ⟨conf, closers, []⟩).2.log ∧
        Event.NewStack (!conf.DomainRules.DisableHijack)
          ∈ beforeStart (RunWithDevice w devIsNil ⟨conf, closers, []⟩).2.log) ∧
    (hijackFlags (RunWithDevice w devIsNil ⟨conf, closers, []⟩).2.log = [] ∨
      hijackFlags (RunWithDevice w devIsNil ⟨conf, closers, []⟩).2.log
        = [!conf.DomainRules.DisableHijack]) ∧
    (w.NewResolver = none → w.NewHandler = none →
      Closer.handler ∈ (RunWithDevice w devIsNil ⟨conf, closers, []⟩).2.closers) ∧
    ((RunWithDevice w devIsNil ⟨conf, closers, []⟩).1 = none ↔
      w.NewResolver = none ∧ w.NewHandler = none ∧
      (devIsNil = true → w.NewDeviceWithMTU = none ∧ w.Activate = none) ∧
      addressError w conf.TunAddr 0 = none ∧ w.NewDomainTree = none ∧ w.stackStart = none ∧
      (conf.ProxyServer ≠ "" → w.Listen = none) ∧ w.AddRouteEntry = none) ∧
    ((RunWithDevice w devIsNil ⟨conf, closers, []⟩).1 = none →
      (RunWithDevice w devIsNil ⟨conf, closers, []⟩).2.log.any Event.isStackStart = true) := by
  have hA := addressEvents_any_failed w conf.TunAddr 0
  have hC := closedIn_addressEvents w conf.TunAddr 0
  have hR := registeredIn_addressEvents w conf.TunAddr 0
  have hS := addressEvents_any_start w conf.TunAddr 0
  have hH := hijackFlags_addressEvents w conf.TunAddr 0
  generalize hrun : RunWithDevice w devIsNil ⟨conf, closers, []⟩ = r
  simp only [RunWithDevice] at hrun
  cases h1 : w.NewResolver with
  | some e =>
    simp only [h1] at hrun
    subst hrun
    simp [App.emit, closedIn_cons, registeredIn_cons, closedIn_nil, registeredIn_nil,
      hijackFlags_cons, hijackFlags_nil, Event.failed, Event.isStackStart]
  | none =>
  cases h2 : w.NewHandler with
  | some e =>
    simp only [h1, h2] at hrun
    subst hrun
    simp [App.emit, closedIn_cons, registeredIn_cons, closedIn_nil, registeredIn_nil,
      hijackFlags_cons, hijackFlags_nil, Event.failed, Event.isStackStart]
  | none =>
  simp only [h1, h2] at hrun
  generalize hb : RunWithDevice.body w devIsNil _ = b at hrun
  simp only [RunWithDevice.body, RunWithDevice.device, setAddresses_eq,
    RunWithDevice.netstack, RunWithDevice.proxy, RunWithDevice.addRoute, App.emit,
    App.attachCloser, if_true, if_false, Bool.false_eq_true] at hb
  cases h3 : addressError w conf.TunAddr 0 with
  | some e =>
    simp only [h3] at hb hA
    repeat' split at hb
    all_goals
      subst hb; subst hrun
      simp [*, deferCloseClosers, App.closeClosers, closedIn_append, registeredIn_append,
        hijackFlags_append, map_Close_any_failed, map_Close_any_start, closedIn_map_Close,
        registeredIn_map_Close, hijackFlags_map_Close, closedIn_cons, registeredIn_cons,
        hijackFlags_cons, closedIn_nil, registeredIn_nil, hijackFlags_nil, Event.failed,
        Event.isStackStart, beforeStart_cons, beforeStart_addressEvents_append]
  | none =>
    simp only [h3] at hb hA
    repeat' split at hb
    all_goals
      subst hb; subst hrun
      simp [*, deferCloseClosers, App.closeClosers, closedIn_append, registeredIn_append,
        hijackFlags_append, map_Close_any_failed, map_Close_any_start, closedIn_map_Close,
        registeredIn_map_Close, hijackFlags_map_Close, closedIn_cons, registeredIn_cons,
        hijackFlags_cons, closedIn_nil, registeredIn_nil, hijackFlags_nil, Event.failed,
        Event.isStackStart, beforeStart_cons, beforeStart_addressEvents_append]

/-- What one run of the divert `Run` leaves in the closer list and in the log. -/
theorem Run_summary (w : World) (conf : Conf) (closers : List Closer) :
    (Run w ⟨conf, closers, []⟩).2.closers
        = closers ++ registeredIn (Run w ⟨conf, closers, []⟩).2.log ∧
    (closedIn (Run w ⟨conf, closers, []⟩).2.log = [] ∨
      closedIn (Run w ⟨conf, closers, []⟩).2.log = (Run w ⟨conf, closers, []⟩).2.closers) ∧
    ((Run w ⟨conf, closers, []⟩).2.log.any Event.isStackStart = true →
        (w.NewResolver = none ∧ w.NewHandler = none ∧ w.NewDomainTree = none ∧
          (NewAppFilter w.intSize w.Getenv conf).2 = none ∧ (NewIPFilter w.filter conf).2 = none) ∧
        Event.NewResolver true ∈ beforeStart (Run w ⟨conf, closers, []⟩).2.log ∧
        Event.NewHandler true ∈ beforeStart (Run w ⟨conf, closers, []⟩).2.log ∧
        Event.NewDomainTree true ∈ beforeStart (Run w ⟨conf, closers, []⟩).2.log ∧
        Event.NewAppFilter true ∈ beforeStart (Run w ⟨conf, closers, []⟩).2.log ∧
        Event.NewIPFilter true ∈ beforeStart (Run w ⟨conf, closers, []⟩).2.log ∧
        Event.NewStack (!conf.DomainRules.DisableHijack)
          ∈ beforeStart (Run w ⟨conf, closers, []⟩).2.log ∧
        Event.divertNewDevice (!conf.DomainRules.DisableHijack) true
          ∈ beforeStart (Run w ⟨conf, closers, []⟩).2.log) ∧
    (hijackFlags (Run w ⟨conf, closers, []⟩).2.log = [] ∨
      hijackFlags (Run w ⟨conf, closers, []⟩).2.log = [!conf.DomainRules.DisableHijack] ∨
      hijackFlags (Run w ⟨conf, closers, []⟩).2.log
        = [!conf.DomainRules.DisableHijack, !conf.DomainRules.DisableHijack]) ∧
    ((Run w ⟨conf, closers, []⟩).1 = none →
      (Run w ⟨conf, closers, []⟩).2.log.any Event.isStackStart = true) := by
  generalize hrun : Run w ⟨conf, closers, []⟩ = r
  simp only [Run] at hrun
  cases h1 : w.OpenMutex with
  | none =>
    simp only [h1] at hrun
    subst hrun
    simp [App.emit, closedIn_cons, registeredIn_cons, closedIn_nil, registeredIn_nil,
      hijackFlags_cons, hijackFlags_nil, Event.isStackStart]
  | some e1 =>
  cases h2 : w.CreateMutex with
  | some e =>
    simp only [h1, h2] at hrun
    subst hrun
    simp [App.emit, closedIn_cons, registeredIn_cons, closedIn_nil, registeredIn_nil,
      hijackFlags_cons, hijackFlags_nil, Event.isStackStart]
  | none =>
  simp only [h1, h2] at hrun
  generalize hb : Run.body w _ = b at hrun
  simp only [Run.body, Run.filters, Run.device, Run.proxy, App.emit, App.attachCloser,
    if_true, if_false, Bool.false_eq_true] at hb
  repeat' split at hb
  all_goals
    subst hb; subst hrun
    simp [*, deferCloseClosers, deferCloseIPFilter, App.emit, App.closeClosers, closedIn_append,
      registeredIn_append, hijackFlags_append, map_Close_any_start, closedIn_map_Close,
      registeredIn_map_Close, hijackFlags_map_Close, closedIn_cons, registeredIn_cons,
      hijackFlags_cons, closedIn_nil, registeredIn_nil, hijackFlags_nil,
      Event.isStackStart, beforeStart_cons]

theorem mem_hijackFlags_of_NewStack (log : List Event) (hijack : Bool)
    (h : Event.NewStack hijack ∈ log) : hijack ∈ hijackFlags log := by
  unfold hijackFlags
  exact List.mem_filterMap.mpr ⟨_, h, rfl⟩

theorem mem_hijackFlags_of_divertNewDevice (log : List Event) (hijack ok : Bool)
    (h : Event.divertNewDevice hijack ok ∈ log) : hijack ∈ hijackFlags log := by
  unfold hijackFlags
  exact List.mem_filterMap.mpr ⟨_, h, rfl⟩

theorem mem_of_any_isStackStart_eq_false (log : List Event) (mtu : Nat) (ok : Bool)
    (h : log.any Event.isStackStart = false) : Event.stackStart mtu ok ∉ log := by
  intro hm
  have : log.any Event.isStackStart = true := List.any_eq_true.mpr ⟨_, hm, rfl⟩
  rw [h] at this
  exact Bool.false_ne_true this

/-! ### The claims on `RunWithDevice` and `Run` -/

/-- C1, the code at the failing inputs: when the proxy listener cannot bind, the divert `Run`
returns the error of `net.Listen` with the mutex, the handler, the device and the stack
registered and calls `Close` on none of them; when the wait on the mutex yields an unexpected
event id it returns an error with the mutex registered and does not close it. -/
theorem Run_returns_error_without_cleanup :
    (Run listenFailWorld ⟨proxyConf, [], []⟩).1 = some errAddrInUse ∧
    (Run listenFailWorld ⟨proxyConf, [], []⟩).2.closers
      = [Closer.WindowsMutex, Closer.handler, Closer.dev, Closer.stack] ∧
    closedIn (Run listenFailWorld ⟨proxyConf, [], []⟩).2.log = [] ∧
    (Run badEventWorld ⟨proxyConf, [], []⟩).1
      = some (GoError.errorfV "wait for mutex event id error: %v" 0x00000102) ∧
    (Run badEventWorld ⟨proxyConf, [], []⟩).2.closers = [Closer.WindowsMutex] ∧
    closedIn (Run badEventWorld ⟨proxyConf, [], []⟩).2.log = [] := by
  decide

/-- C2: in a run of `RunWithDevice` that gets as far as registering the handler, `Close` is
called on every closer of `app.closers` (the handler among them), once each and in the order
of the list, when the error returned is not nil, and on none when it is nil; the error is nil
exactly when the device creation and activation (for a nil `dev`), every
`SetInterfaceAddress`, `NewDomainTree`, `stack.Start`, `net.Listen` (for a non-empty
`ProxyServer`) and `AddRouteEntry` succeed. -/
theorem RunWithDevice_cleanup_iff_error (w : World) (devIsNil : Bool) (conf : Conf)
    (closers : List Closer) (hr : w.NewResolver = none) (hh : w.NewHandler = none) :
    ((RunWithDevice w devIsNil ⟨conf, closers, []⟩).1 ≠ none →
      closedIn (RunWithDevice w devIsNil ⟨conf, closers, []⟩).2.log
        = (RunWithDevice w devIsNil ⟨conf, closers, []⟩).2.closers) ∧
    ((RunWithDevice w devIsNil ⟨conf, closers, []⟩).1 = none →
      closedIn (RunWithDevice w devIsNil ⟨conf, closers, []⟩).2.log = []) ∧
    Closer.handler ∈ (RunWithDevice w devIsNil ⟨conf, closers, []⟩).2.closers ∧
    ((RunWithDevice w devIsNil ⟨conf, closers, []⟩).1 = none ↔
      (devIsNil = true → w.NewDeviceWithMTU = none ∧ w.Activate = none) ∧
      (∀ k a, conf.TunAddr[k]? = some a → w.SetInterfaceAddress k a = none) ∧
      w.NewDomainTree = none ∧ w.stackStart = none ∧
      (conf.ProxyServer ≠ "" → w.Listen = none) ∧ w.AddRouteEntry = none) ∧
    ((RunWithDevice w devIsNil ⟨conf, closers, []⟩).1 ≠ none ↔
      ∃ e ∈ (RunWithDevice w devIsNil ⟨conf, closers, []⟩).2.log, e.failed = true) := by
  obtain ⟨_, hclosed, hfailed, _, _, hhandler, hnil, _⟩ :=
    RunWithDevice_summary w devIsNil conf closers
  have haddr := addressError_eq_none_iff w conf.TunAddr 0
  simp only [Nat.zero_add] at haddr
  refine ⟨?_, ?_, hhandler hr hh, ?_, ?_⟩
  · intro hne
    rw [hclosed]
    simp [hr, hh, hne]
  · intro he
    rw [hclosed]
    simp [he]
  · rw [hnil, haddr]
    simp [hr, hh]
  · rw [← List.any_eq_true, ← hfailed]
    cases (RunWithDevice w devIsNil ⟨conf, closers, []⟩).1 <;> simp

/-- Witness of C2: a run in which `stack.Start` fails closes the handler and the device, and a
run in which nothing fails closes nothing. -/
theorem RunWithDevice_cleanup_iff_error_witness :
    closedIn (RunWithDevice startFailWorld false ⟨proxyConf, [], []⟩).2.log
      = [Closer.handler, Closer.dev] ∧
    closedIn (RunWithDevice okWorld true ⟨proxyConf, [], []⟩).2.log = [] :=
  ⟨((RunWithDevice_cleanup_iff_error startFailWorld false proxyConf [] rfl rfl).1
      (by decide)).trans (by decide),
    (RunWithDevice_cleanup_iff_error okWorld true proxyConf [] rfl rfl).2.1 (by decide)⟩

/-- C3, as stated, fails: when `stack.Start` fails, `RunWithDevice` has registered the handler
and then the device and closes the handler first, and the divert `Run` has registered the
mutex, the handler and the device and closes them in that order. -/
theorem cleanup_not_in_reverse_order :
    registeredIn (RunWithDevice startFailWorld false ⟨proxyConf, [], []⟩).2.log
      = [Closer.handler, Closer.dev] ∧
    closedIn (RunWithDevice startFailWorld false ⟨proxyConf, [], []⟩).2.log
      = [Closer.handler, Closer.dev] ∧
    closedIn (RunWithDevice startFailWorld false ⟨proxyConf, [], []⟩).2.log
      ≠ (registeredIn (RunWithDevice startFailWorld false ⟨proxyConf, [], []⟩).2.log).reverse ∧
    registeredIn (Run startFailWorld ⟨proxyConf, [], []⟩).2.log
      = [Closer.WindowsMutex, Closer.handler, Closer.dev] ∧
    closedIn (Run startFailWorld ⟨proxyConf, [], []⟩).2.log
      = [Closer.WindowsMutex, Closer.handler, Closer.dev] ∧
    closedIn (Run startFailWorld ⟨proxyConf, [], []⟩).2.log
      ≠ (registeredIn (Run startFailWorld ⟨proxyConf, [], []⟩).2.log).reverse := by
  decide

/-- C3, amended: in `RunWithDevice` and in the divert `Run`, when the registered closers are
closed, the `Close` calls go through `app.closers` from its first entry to its last, that is
the closers already there followed by the closers registered in the run in the order of their
registration: of two closers, the one registered earlier is closed first. -/
theorem cleanup_in_registration_order (w : World) (devIsNil : Bool) (conf : Conf)
    (closers : List Closer) :
    (closedIn (RunWithDevice w devIsNil ⟨conf, closers, []⟩).2.log = [] ∨
      closedIn (RunWithDevice w devIsNil ⟨conf, closers, []⟩).2.log
        = closers ++ registeredIn (RunWithDevice w devIsNil ⟨conf, closers, []⟩).2.log) ∧
    (closedIn (Run w ⟨conf, closers, []⟩).2.log = [] ∨
      closedIn (Run w ⟨conf, closers, []⟩).2.log
        = closers ++ registeredIn (Run w ⟨conf, closers, []⟩).2.log) := by
  obtain ⟨hc, hclosed, _⟩ := RunWithDevice_summary w devIsNil conf closers
  obtain ⟨hc2, hclosed2, _⟩ := Run_summary w conf closers
  constructor
  · rw [hclosed]
    split
    · exact Or.inr hc
    · exact Or.inl rfl
  · rw [← hc2]
    exact hclosed2

/-- C5, the code at the failing inputs: when `NewDomainTree`, `stack.Start` or
`SetInterfaceAddress` fails, `RunWithDevice` returns the error of that call as it is, with no
message around it. -/
theorem RunWithDevice_returns_bare_error :
    (RunWithDevice treeFailWorld true ⟨proxyConf, [], []⟩).1
      = some (GoError.ext "invalid domain rule") ∧
    (RunWithDevice startFailWorld true ⟨proxyConf, [], []⟩).1
      = some (GoError.ext "start: device closed") ∧
    (RunWithDevice addressFailWorld true ⟨proxyConf, [], []⟩).1
      = some (GoError.ext "invalid address") := by
  decide

/-- C7: in `RunWithDevice` and in the divert `Run`, every call of `stack.Start` comes after
successful constructions of the resolver, the handler and the domain tree, and in the divert
`Run` also of the application filter and the IP filter; when one of these constructions
fails, `stack.Start` is not called. -/
theorem stackStart_after_constructions (w : World) (devIsNil : Bool) (conf : Conf)
    (closers : List Closer) :
    (∀ pre post mtu ok,
      (RunWithDevice w devIsNil ⟨conf, closers, []⟩).2.log = pre ++ Event.stackStart mtu ok :: post →
        Event.NewResolver true ∈ pre ∧ Event.NewHandler true ∈ pre ∧
          Event.NewDomainTree true ∈ pre) ∧
    (w.NewResolver ≠ none ∨ w.NewHandler ≠ none ∨ w.NewDomainTree ≠ none →
      ∀ mtu ok, Event.stackStart mtu ok ∉ (RunWithDevice w devIsNil ⟨conf, closers, []⟩).2.log) ∧
    (∀ pre post mtu ok,
      (Run w ⟨conf, closers, []⟩).2.log = pre ++ Event.stackStart mtu ok :: post →
        Event.NewResolver true ∈ pre ∧ Event.NewHandler true ∈ pre ∧
          Event.NewDomainTree true ∈ pre ∧ Event.NewAppFilter true ∈ pre ∧
          Event.NewIPFilter true ∈ pre) ∧
    (w.NewResolver ≠ none ∨ w.NewHandler ≠ none ∨ w.NewDomainTree ≠ none ∨
        (NewAppFilter w.intSize w.Getenv conf).2 ≠ none ∨ (NewIPFilter w.filter conf).2 ≠ none →
      ∀ mtu ok, Event.stackStart mtu ok ∉ (Run w ⟨conf, closers, []⟩).2.log) := by
  obtain ⟨_, _, _, htun, _⟩ := RunWithDevice_summary w devIsNil conf closers
  obtain ⟨_, _, hwin, _⟩ := Run_summary w conf closers
  refine ⟨?_, ?_, ?_, ?_⟩
  · intro pre post mtu ok hlog
    have hany : (RunWithDevice w devIsNil ⟨conf, closers, []⟩).2.log.any Event.isStackStart
        = true := by
      rw [hlog]
      simp [Event.isStackStart]
    obtain ⟨_, h1, h2, h3, _⟩ := htun hany
    rw [hlog] at h1 h2 h3
    exact ⟨mem_pre_of_mem_beforeStart pre post (Event.stackStart mtu ok) _ rfl h1,
      mem_pre_of_mem_beforeStart pre post (Event.stackStart mtu ok) _ rfl h2,
      mem_pre_of_mem_beforeStart pre post (Event.stackStart mtu ok) _ rfl h3⟩
  · intro hfail mtu ok
    apply mem_of_any_isStackStart_eq_false
    cases hany : (RunWithDevice w devIsNil ⟨conf, closers, []⟩).2.log.any Event.isStackStart with
    | false => rfl
    | true =>
      obtain ⟨⟨h1, h2, h3⟩, _⟩ := htun hany
      rcases hfail with h | h | h
      · exact absurd h1 h
      · exact absurd h2 h
      · exact absurd h3 h
  · intro pre post mtu ok hlog
    have hany : (Run w ⟨conf, closers, []⟩).2.log.any Event.isStackStart = true := by
      rw [hlog]
      simp [Event.isStackStart]
    obtain ⟨_, h1, h2, h3, h4, h5, _⟩ := hwin hany
    rw [hlog] at h1 h2 h3 h4 h5
    exact ⟨mem_pre_of_mem_beforeStart pre post (Event.stackStart mtu ok) _ rfl h1,
      mem_pre_of_mem_beforeStart pre post (Event.stackStart mtu ok) _ rfl h2,
      mem_pre_of_mem_beforeStart pre post (Event.stackStart mtu ok) _ rfl h3,
      mem_pre_of_mem_beforeStart pre post (Event.stackStart mtu ok) _ rfl h4,
      mem_pre_of_mem_beforeStart pre post (Event.stackStart mtu ok) _ rfl h5⟩
  · intro hfail mtu ok
    apply mem_of_any_isStackStart_eq_false
    cases hany : (Run w ⟨conf, closers, []⟩).2.log.any Event.isStackStart with
    | false => rfl
    | true =>
      obtain ⟨⟨h1, h2, h3, h4, h5⟩, _⟩ := hwin hany
      rcases hfail with h | h | h | h | h
      · exact absurd h1 h
      · exact absurd h2 h
      · exact absurd h3 h
      · exact absurd h4 h
      · exact absurd h5 h

/-- Witness of C7: a run in which everything succeeds starts the stack after the three
constructions, and a run in which `NewDomainTree` fails does not start it. -/
theorem stackStart_after_constructions_witness :
    Event.NewDomainTree true
        ∈ [Event.NewResolver true, Event.NewHandler true, Event.attachCloser Closer.handler,
            Event.attachCloser Closer.dev, Event.SetInterfaceAddress "192.168.0.11/24" true,
            Event.NewDomainTree true, Event.NewStack true] ∧
      Event.stackStart tunMTU true
        ∉ (RunWithDevice treeFailWorld false ⟨proxyConf, [], []⟩).2.log :=
  ⟨((stackStart_after_constructions okWorld false proxyConf []).1
      [Event.NewResolver true, Event.NewHandler true, Event.attachCloser Closer.handler,
        Event.attachCloser Closer.dev, Event.SetInterfaceAddress "192.168.0.11/24" true,
        Event.NewDomainTree true, Event.NewStack true]
      [Event.attachCloser Closer.stack, Event.Listen "127.0.0.1:1080" true, Event.NewServer,
        Event.attachCloser Closer.server, Event.Serve, Event.AddRouteEntry true]
      tunMTU true (by decide)).2.2,
    (stackStart_after_constructions treeFailWorld false proxyConf []).2.1
      (Or.inr (Or.inr (by decide))) tunMTU true⟩

theorem eq_not_of_mem_hijackFlags (log : List Event) (d hijack : Bool)
    (hflags : hijackFlags log = [] ∨ hijackFlags log = [!d] ∨ hijackFlags log = [!d, !d])
    (hmem : hijack ∈ hijackFlags log) : hijack = !d := by
  rcases hflags with h | h | h <;> rw [h] at hmem <;> simp at hmem <;> exact hmem

theorem mem_of_mem_beforeStart (log : List Event) (e : Event) (h : e ∈ beforeStart log) :
    e ∈ log :=
  (List.takeWhile_prefix _).subset h

/-- C8: in both builds every `netstack.NewStack` call gets a hijack flag that is `true`
exactly when `Conf.DomainRules.DisableHijack` is `false`; in the divert build every
`divert.NewDevice` call gets a flag that is `true` exactly when `DisableHijack` is `false`,
so the device and the stack get the same flag; and a run that returns a nil error has made
these calls. -/
theorem hijack_flag_is_not_DisableHijack (w : World) (devIsNil : Bool) (conf : Conf)
    (closers : List Closer) :
    (∀ hijack, Event.NewStack hijack ∈ (RunWithDevice w devIsNil ⟨conf, closers, []⟩).2.log →
      (hijack = true ↔ conf.DomainRules.DisableHijack = false)) ∧
    (∀ hijack, Event.NewStack hijack ∈ (Run w ⟨conf, closers, []⟩).2.log →
      (hijack = true ↔ conf.DomainRules.DisableHijack = false)) ∧
    (∀ hijack ok, Event.divertNewDevice hijack ok ∈ (Run w ⟨conf, closers, []⟩).2.log →
      (hijack = true ↔ conf.DomainRules.DisableHijack = false)) ∧
    (∀ hijack hijack2 ok, Event.divertNewDevice hijack ok ∈ (Run w ⟨conf, closers, []⟩).2.log →
      Event.NewStack hijack2 ∈ (Run w ⟨conf, closers, []⟩).2.log → hijack = hijack2) ∧
    ((RunWithDevice w devIsNil ⟨conf, closers, []⟩).1 = none →
      Event.NewStack (!conf.DomainRules.DisableHijack)
        ∈ (RunWithDevice w devIsNil ⟨conf, closers, []⟩).2.log) ∧
    ((Run w ⟨conf, closers, []⟩).1 = none →
      Event.NewStack (!conf.DomainRules.DisableHijack) ∈ (Run w ⟨conf, closers, []⟩).2.log ∧
      Event.divertNewDevice (!conf.DomainRules.DisableHijack) true
        ∈ (Run w ⟨conf, closers, []⟩).2.log) := by
  obtain ⟨_, _, _, htun, hflagsT, _, _, hstartT⟩ := RunWithDevice_summary w devIsNil conf closers
  obtain ⟨_, _, hwin, hflagsW, hstartW⟩ := Run_summary w conf closers
  have hT : ∀ hijack, hijack ∈ hijackFlags (RunWithDevice w devIsNil ⟨conf, closers, []⟩).2.log →
      hijack = !conf.DomainRules.DisableHijack := fun hijack hm =>
    eq_not_of_mem_hijackFlags _ _ _ (hflagsT.imp_right Or.inl) hm
  have hW : ∀ hijack, hijack ∈ hijackFlags (Run w ⟨conf, closers, []⟩).2.log →
      hijack = !conf.DomainRules.DisableHijack := fun hijack hm =>
    eq_not_of_mem_hijackFlags _ _ _ hflagsW hm
  refine ⟨?_, ?_, ?_, ?_, ?_, ?_⟩
  · intro hijack hm
    rw [hT hijack (mem_hijackFlags_of_NewStack _ _ hm)]
    cases conf.DomainRules.DisableHijack <;> simp
  · intro hijack hm
    rw [hW hijack (mem_hijackFlags_of_NewStack _ _ hm)]
    cases conf.DomainRules.DisableHijack <;> simp
  · intro hijack ok hm
    rw [hW hijack (mem_hijackFlags_of_divertNewDevice _ _ _ hm)]
    cases conf.DomainRules.DisableHijack <;> simp
  · intro hijack hijack2 ok hm hm2
    rw [hW hijack (mem_hijackFlags_of_divertNewDevice _ _ _ hm),
      hW hijack2 (mem_hijackFlags_of_NewStack _ _ hm2)]
  · intro hnil
    exact mem_of_mem_beforeStart _ _ (htun (hstartT hnil)).2.2.2.2
  · intro hnil
    have h := hwin (hstartW hnil)
    exact ⟨mem_of_mem_beforeStart _ _ h.2.2.2.2.2.2.1,
      mem_of_mem_beforeStart _ _ h.2.2.2.2.2.2.2⟩

/-- Witness of C8: with `DisableHijack` set, a divert run in which everything succeeds hands
`false` to `divert.NewDevice` and to `netstack.NewStack`. -/
theorem hijack_flag_is_not_DisableHijack_witness :
    Event.NewStack false
        ∈ (Run okWorld ⟨{ proxyConf with DomainRules := ⟨true⟩ }, [], []⟩).2.log ∧
      Event.divertNewDevice false true
        ∈ (Run okWorld ⟨{ proxyConf with DomainRules := ⟨true⟩ }, [], []⟩).2.log :=
  (hijack_flag_is_not_DisableHijack okWorld true { proxyConf with DomainRules := ⟨true⟩ }
    []).2.2.2.2.2 (by decide)

end Shadow
